import Mathlib

/-!
Shallow embedding of the Order Tracking Notifier of `src/js/notifications.js`
(Foodie repository).

The component simulates a linear order lifecycle
Placed → Preparing → Ready → OnTheWay → Delivered with fixed wall-clock
offsets from tracking start (10s / 20s / 30s / 45s), persists each transition
as JSON under the localStorage key `foodie:orders`, raises a user
notification per transition, and resumes an in-progress order on page load.

Modelling conventions:
* Epoch-millisecond times are `Int` (JS numbers used only for integral
  millisecond arithmetic and comparisons here).
* The raw localStorage value is `Option StorageVal`: `none` models an absent
  key (`getItem` returning `null`, defaulted to `'[]'` by the source),
  `StorageVal.ordersJson l` a well-formed JSON encoding of the record list
  `l`, and `StorageVal.malformed` a value `JSON.parse` rejects.
* Operations run in `Except String`: a thrown JS exception (JSON parse
  error, storage write failure) is `.error msg`; the persisted storage is
  unchanged when an operation throws (`setItem` is all-or-nothing, and the
  in-memory array being mutated before a throw is a local temporary).
* `SysState` carries the clock, the pending `setTimeout` callbacks (each
  scheduled callback closes over an order id and the status it will write),
  and ghost logs of persistence writes and raised notifications, used to
  state "exactly these writes / notifications occurred".
* Timer firing (`fireNextE`) models the JS event loop under exact-timer
  semantics: the pending callback with the least deadline fires next
  (registration order breaking ties), and the clock jumps to its deadline.
-/

/-- The closed status set `ORDER_STATUSES` of `notifications.js`. -/
inductive OrderStatus where
  | Placed
  | Preparing
  | Ready
  | OnTheWay
  | Delivered
deriving DecidableEq

/-- `ORDER_TIMINGS.PREPARING`: 10 seconds after placed. -/
def TIMING_PREPARING : Int := 10000

/-- `ORDER_TIMINGS.READY`: 20 seconds after placed. -/
def TIMING_READY : Int := 20000

/-- `ORDER_TIMINGS.ON_WAY`: 30 seconds after placed. -/
def TIMING_ON_WAY : Int := 30000

/-- `ORDER_TIMINGS.DELIVERED`: 45 seconds after placed. -/
def TIMING_DELIVERED : Int := 45000

/-- One persisted order record (the object built in `saveOrderStatus`). -/
structure OrderRecord where
  id : String
  status : OrderStatus
  timestamp : Int
  lastUpdate : Int
deriving DecidableEq

/-- The raw value stored under the key `foodie:orders`. -/
inductive StorageVal where
  | ordersJson (orders : List OrderRecord)
  | malformed
deriving DecidableEq

/-- `JSON.parse(localStorage.getItem('foodie:orders') || '[]')`: an absent
key parses as the empty list, a malformed value throws. -/
def parseOrders : Option StorageVal → Except String (List OrderRecord)
  | none => .ok []
  | some (.ordersJson l) => .ok l
  | some .malformed => .error "SyntaxError: JSON.parse"

/-- A pending `setTimeout` callback of `startOrderTracking`: at `fireAt` it
saves `status` for `orderId` (timestamp `Date.now()`) and notifies. -/
structure Timeout where
  fireAt : Int
  orderId : String
  status : OrderStatus
deriving DecidableEq

/-- Ghost log entry: one call to `saveOrderStatus` that reached `setItem`. -/
structure WriteEvent where
  id : String
  status : OrderStatus
  timestamp : Int
  lastUpdate : Int
deriving DecidableEq

/-- Ghost log entry: one `showOrderNotification` call (the fixed title/body
pair is determined by the status, with the order id interpolated). -/
structure NotificationEvent where
  orderId : String
  status : OrderStatus
deriving DecidableEq

/-- Whole-system state: persisted storage, wall clock, pending timer
callbacks, the module global `currentOrderId`, ghost logs, and whether
`localStorage.setItem` currently succeeds (quota / availability). -/
structure SysState where
  storage : Option StorageVal
  now : Int
  timeouts : List Timeout
  currentOrderId : Option String
  writes : List WriteEvent
  notifs : List NotificationEvent
  setOk : Bool
deriving DecidableEq

/-- List-level body of `saveOrderStatus`: find by id (`findIndex`), replace
in place if found (`orders[i] = orderData`), else append (`orders.push`). -/
def saveOrderStatusList (orderId : String) (status : OrderStatus)
    (timestamp nowMs : Int) (orders : List OrderRecord) : List OrderRecord :=
  let orderData : OrderRecord :=
    { id := orderId, status := status, timestamp := timestamp, lastUpdate := nowMs }
  match orders.findIdx? (fun o => o.id == orderId) with
  | some i => orders.set i orderData
  | none => orders ++ [orderData]

/-- List-level body of `getOrderStatus`: `orders.find(o => o.id === orderId)`. -/
def getOrderStatusList (orderId : String) (orders : List OrderRecord) :
    Option OrderRecord :=
  orders.find? (fun o => o.id == orderId)

/-- `saveOrderStatus(orderId, status, timestamp)`: parse the stored
collection, upsert by id stamping `lastUpdate = Date.now()`, write the whole
collection back. A parse error or a failing `setItem` propagates. -/
def saveOrderStatusE (orderId : String) (status : OrderStatus)
    (timestamp : Int) (s : SysState) : Except String SysState := do
  let orders ← parseOrders s.storage
  let orders' := saveOrderStatusList orderId status timestamp s.now orders
  if s.setOk then
    .ok { s with
      storage := some (.ordersJson orders'),
      writes := s.writes ++
        [{ id := orderId, status := status, timestamp := timestamp, lastUpdate := s.now }] }
  else
    .error "QuotaExceededError"

/-- `getOrderStatus(orderId)`: pure read; a parse error propagates. -/
def getOrderStatusE (orderId : String) (s : SysState) :
    Except String (Option OrderRecord) := do
  let orders ← parseOrders s.storage
  .ok (getOrderStatusList orderId orders)

/-- `showOrderNotification` for a transition of `orderId`: logs the raised
notification (permission denial only suppresses display, not this call). -/
def showNotif (orderId : String) (status : OrderStatus) (s : SysState) : SysState :=
  { s with notifs := s.notifs ++ [{ orderId := orderId, status := status }] }

/-- `startOrderTracking(orderId)`: set `currentOrderId`, clear every pending
timeout, persist and notify Placed at the start time, then schedule the four
transitions at the fixed offsets from the start time. -/
def startOrderTrackingE (orderId : String) (s : SysState) :
    Except String SysState := do
  let startTime := s.now
  let s1 : SysState := { s with currentOrderId := some orderId, timeouts := [] }
  let s2 ← saveOrderStatusE orderId .Placed startTime s1
  let s3 := showNotif orderId .Placed s2
  .ok { s3 with timeouts :=
    [ { fireAt := startTime + TIMING_PREPARING, orderId := orderId, status := .Preparing },
      { fireAt := startTime + TIMING_READY, orderId := orderId, status := .Ready },
      { fireAt := startTime + TIMING_ON_WAY, orderId := orderId, status := .OnTheWay },
      { fireAt := startTime + TIMING_DELIVERED, orderId := orderId, status := .Delivered } ] }

/-- The filter predicate of `checkExistingOrders`:
`Date.now() - order.lastUpdate < ORDER_TIMINGS.DELIVERED && order.status !== DELIVERED`. -/
def isActiveOrder (nowMs : Int) (o : OrderRecord) : Bool :=
  nowMs - o.lastUpdate < TIMING_DELIVERED && !(o.status == .Delivered)

/-- `activeOrders.sort((a, b) => b.timestamp - a.timestamp)[0]`: the first
element of greatest `timestamp` (JS `sort` is stable, so ties keep the
earlier element first). -/
def latestActive : List OrderRecord → Option OrderRecord
  | [] => none
  | o :: rest =>
    match latestActive rest with
    | none => some o
    | some b => if b.timestamp > o.timestamp then some b else some o

/-- `checkExistingOrders()` (resume on load): filter to active candidates,
pick the most recently started, and dispatch on the elapsed-time window,
backdating the skipped status before restarting the full ladder. -/
def checkExistingOrdersE (s : SysState) : Except String SysState := do
  let orders ← parseOrders s.storage
  let activeOrders := orders.filter (isActiveOrder s.now)
  match latestActive activeOrders with
  | none => .ok s
  | some latestOrder =>
    let timeElapsed := s.now - latestOrder.timestamp
    if timeElapsed < TIMING_PREPARING then
      startOrderTrackingE latestOrder.id s
    else if timeElapsed < TIMING_READY then do
      let s1 ← saveOrderStatusE latestOrder.id .Preparing
        (latestOrder.timestamp + TIMING_PREPARING) s
      startOrderTrackingE latestOrder.id s1
    else if timeElapsed < TIMING_ON_WAY then do
      let s1 ← saveOrderStatusE latestOrder.id .Ready
        (latestOrder.timestamp + TIMING_READY) s
      startOrderTrackingE latestOrder.id s1
    else if timeElapsed < TIMING_DELIVERED then do
      let s1 ← saveOrderStatusE latestOrder.id .OnTheWay
        (latestOrder.timestamp + TIMING_ON_WAY) s
      startOrderTrackingE latestOrder.id s1
    else
      .ok s

/-- Event-loop model: the pending timeout with the least deadline fires
next; among equal deadlines, the one registered first. Returns it together
with the remaining queue. -/
def extractNext : List Timeout → Option (Timeout × List Timeout)
  | [] => none
  | t :: rest =>
    match extractNext rest with
    | none => some (t, [])
    | some (u, rest') =>
      if u.fireAt < t.fireAt then some (u, t :: rest') else some (t, rest)

/-- Fire the next pending timer callback under exact-timer semantics: the
clock jumps to its deadline, the callback persists its status with
`timestamp = Date.now()` and raises the notification. No pending timeout is
a no-op. -/
def fireNextE (s : SysState) : Except String SysState :=
  match extractNext s.timeouts with
  | none => .ok s
  | some (t, rest) => do
    let s1 : SysState := { s with now := t.fireAt, timeouts := rest }
    let s2 ← saveOrderStatusE t.orderId t.status s1.now s1
    .ok (showNotif t.orderId t.status s2)

/-- The operations of the component, plus clock advance and timer firing,
for stating state invariants over arbitrary operation sequences. -/
inductive NotifierOp where
  | startTracking (orderId : String)
  | persistStatus (orderId : String) (status : OrderStatus) (timestamp : Int)
  | getStatus (orderId : String)
  | resumeOnLoad
  | fireTimer
  | tick (d : Int)

/-- Run one operation. `getStatus` is a pure read and leaves the state
unchanged; `tick d` advances the wall clock. -/
def runOp : NotifierOp → SysState → Except String SysState
  | .startTracking orderId => startOrderTrackingE orderId
  | .persistStatus orderId status timestamp => saveOrderStatusE orderId status timestamp
  | .getStatus _ => fun s => .ok s
  | .resumeOnLoad => checkExistingOrdersE
  | .fireTimer => fireNextE
  | .tick d => fun s => .ok { s with now := s.now + d }

/-- Run a sequence of operations, propagating any thrown error. -/
def runOps : List NotifierOp → SysState → Except String SysState
  | [], s => .ok s
  | op :: ops, s => do
    let s' ← runOp op s
    runOps ops s'

/-- The ids present in a well-formed persisted collection (empty for an
absent or unparseable value). -/
def storageIds (s : SysState) : List String :=
  match s.storage with
  | some (.ordersJson l) => l.map (fun o => o.id)
  | _ => []

/-- Proof-layer rendering of the upsert of `saveOrderStatus`: replace the
first record whose id matches, else append. Proved equal to
`saveOrderStatusList` below. -/
def upsertFirst (rec : OrderRecord) : List OrderRecord → List OrderRecord
  | [] => [rec]
  | o :: rest => if o.id == rec.id then rec :: rest else o :: upsertFirst rec rest

theorem saveOrderStatusList_eq_upsertFirst (orderId : String) (st : OrderStatus)
    (ts nowMs : Int) (l : List OrderRecord) :
    saveOrderStatusList orderId st ts nowMs l =
      upsertFirst { id := orderId, status := st, timestamp := ts, lastUpdate := nowMs } l := by
  induction l with
  | nil => simp [saveOrderStatusList, upsertFirst]
  | cons o rest ih =>
    by_cases h : o.id == orderId
    · simp [saveOrderStatusList, upsertFirst, List.findIdx?_cons, h]
    · simp only [saveOrderStatusList, List.findIdx?_cons, h, if_false,
        List.findIdx?_succ, upsertFirst] at ih ⊢
      cases hfi : List.findIdx? (fun o => o.id == orderId) rest with
      | none => simpa [hfi] using ih
      | some i => simpa [hfi] using ih

theorem getOrderStatusList_upsertFirst_same (rec : OrderRecord) (l : List OrderRecord) :
    getOrderStatusList rec.id (upsertFirst rec l) = some rec := by
  induction l with
  | nil => simp [upsertFirst, getOrderStatusList]
  | cons o rest ih =>
    by_cases h : o.id == rec.id
    · simp [upsertFirst, h, getOrderStatusList]
    · simpa [upsertFirst, h, getOrderStatusList] using ih

theorem getOrderStatusList_upsertFirst_other (rec : OrderRecord) (l : List OrderRecord)
    (qid : String) (h : qid ≠ rec.id) :
    getOrderStatusList qid (upsertFirst rec l) = getOrderStatusList qid l := by
  induction l with
  | nil => simp [upsertFirst, getOrderStatusList, h.symm]
  | cons o rest ih =>
    by_cases ho : o.id = rec.id
    · simp [upsertFirst, ho, getOrderStatusList, h.symm]
    · by_cases hq : o.id = qid
      · simp [upsertFirst, ho, getOrderStatusList, hq, h]
      · simpa [upsertFirst, ho, getOrderStatusList, hq] using ih

theorem mem_map_id_upsertFirst (rec : OrderRecord) (l : List OrderRecord) (x : String)
    (hx : x ∈ (upsertFirst rec l).map (fun o => o.id)) :
    x = rec.id ∨ x ∈ l.map (fun o => o.id) := by
  induction l with
  | nil => simpa [upsertFirst] using hx
  | cons o rest ih =>
    by_cases ho : o.id = rec.id
    · simp only [upsertFirst, ho, beq_self_eq_true, if_true, List.map_cons,
        List.mem_cons] at hx
      rcases hx with hx | hx
      · exact Or.inl hx
      · exact Or.inr (List.mem_cons.mpr (Or.inr hx))
    · simp only [upsertFirst, beq_iff_eq, ho, if_false, List.map_cons,
        List.mem_cons] at hx
      rcases hx with hx | hx
      · exact Or.inr (List.mem_cons.mpr (Or.inl hx))
      · rcases ih hx with hy | hy
        · exact Or.inl hy
        · exact Or.inr (List.mem_cons.mpr (Or.inr hy))

theorem nodup_map_id_upsertFirst (rec : OrderRecord) (l : List OrderRecord)
    (h : (l.map (fun o => o.id)).Nodup) :
    ((upsertFirst rec l).map (fun o => o.id)).Nodup := by
  induction l with
  | nil => simp [upsertFirst]
  | cons o rest ih =>
    simp only [List.map_cons, List.nodup_cons] at h
    by_cases ho : o.id = rec.id
    · simp only [upsertFirst, ho, beq_self_eq_true, if_true, List.map_cons,
        List.nodup_cons]
      exact ⟨ho ▸ h.1, h.2⟩
    · simp only [upsertFirst, beq_iff_eq, ho, if_false, List.map_cons,
        List.nodup_cons]
      refine ⟨fun hmem => ?_, ih h.2⟩
      rcases mem_map_id_upsertFirst rec rest o.id hmem with hx | hx
      · exact ho hx
      · exact h.1 hx

theorem upsertFirst_getElem? (rec : OrderRecord) (l : List OrderRecord)
    (j : Nat) (hj : j < l.length) (h : (l.get ⟨j, hj⟩).id ≠ rec.id) :
    (upsertFirst rec l)[j]? = some (l.get ⟨j, hj⟩) := by
  induction l generalizing j with
  | nil => exact absurd hj (by simp)
  | cons o rest ih =>
    cases j with
    | zero =>
      have ho : o.id ≠ rec.id := h
      simp [upsertFirst, ho]
    | succ k =>
      have hk : k < rest.length := Nat.lt_of_succ_lt_succ hj
      by_cases ho : o.id = rec.id
      · simp only [upsertFirst, ho, beq_self_eq_true, if_true]
        simp [List.getElem?_eq_getElem hk]
      · simp only [upsertFirst, beq_iff_eq, ho, if_false]
        simpa using ih k hk (by simpa using h)

theorem upsertFirst_of_not_mem (rec : OrderRecord) (l : List OrderRecord)
    (h : ∀ r ∈ l, r.id ≠ rec.id) : upsertFirst rec l = l ++ [rec] := by
  induction l with
  | nil => simp [upsertFirst]
  | cons o rest ih =>
    have ho : o.id ≠ rec.id := h o (List.mem_cons_self o rest)
    have hrest : upsertFirst rec rest = rest ++ [rec] :=
      ih (fun r hr => h r (List.mem_cons_of_mem o hr))
    simp [upsertFirst, ho, hrest]

theorem upsertFirst_of_mem (rec : OrderRecord) (l : List OrderRecord)
    (h : ∃ r ∈ l, r.id = rec.id) :
    ∃ pre mid post, l = pre ++ mid :: post ∧ mid.id = rec.id ∧
      (∀ p ∈ pre, p.id ≠ rec.id) ∧ upsertFirst rec l = pre ++ rec :: post := by
  induction l with
  | nil => simp at h
  | cons o rest ih =>
    by_cases ho : o.id = rec.id
    · exact ⟨[], o, rest, by simp, ho, by simp, by simp [upsertFirst, ho]⟩
    · have hrest : ∃ r ∈ rest, r.id = rec.id := by
        rcases h with ⟨r, hr, hid⟩
        rcases List.mem_cons.mp hr with rfl | hr
        · exact absurd hid ho
        · exact ⟨r, hr, hid⟩
      rcases ih hrest with ⟨pre, mid, post, hsplit, hmid, hpre, hres⟩
      refine ⟨o :: pre, mid, post, by simp [hsplit], hmid, ?_, ?_⟩
      · intro p hp
        rcases List.mem_cons.mp hp with rfl | hp
        · exact ho
        · exact hpre p hp
      · simp [upsertFirst, ho, hres]

theorem latestActive_mem (l : List OrderRecord) (L : OrderRecord)
    (h : latestActive l = some L) : L ∈ l := by
  induction l with
  | nil => simp [latestActive] at h
  | cons o rest ih =>
    simp only [latestActive] at h
    cases hrest : latestActive rest with
    | none => rw [hrest] at h; simp at h; simp [h]
    | some b =>
      rw [hrest] at h
      by_cases hb : b.timestamp > o.timestamp
      · simp only [hb, if_true, Option.some.injEq] at h
        exact List.mem_cons.mpr (Or.inr (ih (h ▸ hrest)))
      · simp only [hb, if_false, Option.some.injEq] at h
        simp [← h]

theorem except_bind_ok {α β : Type} (x : Except String α) (f : α → Except String β)
    (b : β) (h : (x >>= f) = .ok b) : ∃ a, x = .ok a ∧ f a = .ok b := by
  cases x with
  | ok a => exact ⟨a, rfl, h⟩
  | error e => simp [Bind.bind, Except.bind] at h

theorem saveOrderStatusE_ok (orderId : String) (st : OrderStatus) (ts : Int)
    (s : SysState) (l : List OrderRecord)
    (hp : parseOrders s.storage = .ok l) (hw : s.setOk = true) :
    saveOrderStatusE orderId st ts s = .ok { s with
      storage := some (.ordersJson (saveOrderStatusList orderId st ts s.now l)),
      writes := s.writes ++
        [{ id := orderId, status := st, timestamp := ts, lastUpdate := s.now }] } := by
  simp [saveOrderStatusE, hp, hw, Bind.bind, Except.bind]

theorem saveOrderStatusE_ok_inv (orderId : String) (st : OrderStatus) (ts : Int)
    (s s' : SysState) (h : saveOrderStatusE orderId st ts s = .ok s') :
    ∃ l, parseOrders s.storage = .ok l ∧ s.setOk = true ∧
      s' = { s with
        storage := some (.ordersJson (saveOrderStatusList orderId st ts s.now l)),
        writes := s.writes ++
          [{ id := orderId, status := st, timestamp := ts, lastUpdate := s.now }] } := by
  unfold saveOrderStatusE at h
  cases hp : parseOrders s.storage with
  | error e => rw [hp] at h; simp [Bind.bind, Except.bind] at h
  | ok l =>
    rw [hp] at h
    cases hw : s.setOk with
    | false => rw [hw] at h; simp [Bind.bind, Except.bind] at h
    | true =>
      rw [hw] at h
      simp only [Bind.bind, Except.bind, if_true, Except.ok.injEq] at h
      exact ⟨l, rfl, rfl, h.symm⟩

theorem startOrderTrackingE_ok (orderId : String) (s : SysState) (l : List OrderRecord)
    (hp : parseOrders s.storage = .ok l) (hw : s.setOk = true) :
    startOrderTrackingE orderId s = .ok { s with
      storage := some (.ordersJson (saveOrderStatusList orderId .Placed s.now s.now l)),
      currentOrderId := some orderId,
      timeouts :=
        [ { fireAt := s.now + TIMING_PREPARING, orderId := orderId, status := .Preparing },
          { fireAt := s.now + TIMING_READY, orderId := orderId, status := .Ready },
          { fireAt := s.now + TIMING_ON_WAY, orderId := orderId, status := .OnTheWay },
          { fireAt := s.now + TIMING_DELIVERED, orderId := orderId, status := .Delivered } ],
      writes := s.writes ++
        [{ id := orderId, status := .Placed, timestamp := s.now, lastUpdate := s.now }],
      notifs := s.notifs ++ [{ orderId := orderId, status := .Placed }] } := by
  have hp1 : parseOrders (SysState.storage
      { s with currentOrderId := some orderId, timeouts := ([] : List Timeout) }) =
      .ok l := hp
  simp [startOrderTrackingE,
    saveOrderStatusE_ok orderId .Placed s.now _ l hp1 hw,
    Bind.bind, Except.bind, showNotif]

theorem fireNextE_ok (s : SysState) (t : Timeout) (rest : List Timeout)
    (l : List OrderRecord) (hx : extractNext s.timeouts = some (t, rest))
    (hp : parseOrders s.storage = .ok l) (hw : s.setOk = true) :
    fireNextE s = .ok { s with
      now := t.fireAt,
      timeouts := rest,
      storage := some (.ordersJson
        (saveOrderStatusList t.orderId t.status t.fireAt t.fireAt l)),
      writes := s.writes ++
        [{ id := t.orderId, status := t.status, timestamp := t.fireAt,
           lastUpdate := t.fireAt }],
      notifs := s.notifs ++ [{ orderId := t.orderId, status := t.status }] } := by
  have hp1 : parseOrders (SysState.storage
      { s with now := t.fireAt, timeouts := rest }) = .ok l := hp
  simp [fireNextE, hx,
    saveOrderStatusE_ok t.orderId t.status t.fireAt _ l hp1 hw,
    Bind.bind, Except.bind, showNotif]

theorem getOrderStatusE_ok (orderId : String) (s : SysState) (l : List OrderRecord)
    (hp : parseOrders s.storage = .ok l) :
    getOrderStatusE orderId s = .ok (getOrderStatusList orderId l) := by
  simp [getOrderStatusE, hp, Bind.bind, Except.bind]

theorem storageIds_of_parse (s : SysState) (l : List OrderRecord)
    (hp : parseOrders s.storage = .ok l) : storageIds s = l.map (fun o => o.id) := by
  cases hs : s.storage with
  | none =>
    rw [hs] at hp
    simp only [parseOrders, Except.ok.injEq] at hp
    simp [storageIds, hs, ← hp]
  | some v =>
    cases v with
    | ordersJson l0 =>
      rw [hs] at hp
      simp only [parseOrders, Except.ok.injEq] at hp
      simp [storageIds, hs, hp]
    | malformed =>
      rw [hs] at hp
      simp [parseOrders] at hp

theorem save_preserves_ids (orderId : String) (st : OrderStatus) (ts : Int)
    (s s' : SysState) (h : saveOrderStatusE orderId st ts s = .ok s')
    (hn : (storageIds s).Nodup) : (storageIds s').Nodup := by
  rcases saveOrderStatusE_ok_inv orderId st ts s s' h with ⟨l, hp, _, rfl⟩
  have hl : (l.map (fun o => o.id)).Nodup := by
    rw [← storageIds_of_parse s l hp]; exact hn
  simp only [storageIds, saveOrderStatusList_eq_upsertFirst]
  exact nodup_map_id_upsertFirst _ l hl

theorem start_preserves_ids (orderId : String) (s s' : SysState)
    (h : startOrderTrackingE orderId s = .ok s')
    (hn : (storageIds s).Nodup) : (storageIds s').Nodup := by
  unfold startOrderTrackingE at h
  rcases except_bind_ok _ _ _ h with ⟨s2, hsave, hrest⟩
  simp only [Except.ok.injEq] at hrest
  have h2 : (storageIds s2).Nodup :=
    save_preserves_ids orderId .Placed s.now _ s2 hsave (by simpa [storageIds] using hn)
  rw [← hrest]
  simpa [storageIds, showNotif] using h2

theorem fire_preserves_ids (s s' : SysState) (h : fireNextE s = .ok s')
    (hn : (storageIds s).Nodup) : (storageIds s').Nodup := by
  unfold fireNextE at h
  cases hx : extractNext s.timeouts with
  | none => rw [hx] at h; simp only [Except.ok.injEq] at h; rw [← h]; exact hn
  | some tr =>
    rw [hx] at h
    rcases except_bind_ok _ _ _ h with ⟨s2, hsave, hrest⟩
    simp only [Except.ok.injEq] at hrest
    have h2 : (storageIds s2).Nodup :=
      save_preserves_ids tr.1.orderId tr.1.status _ _ s2 hsave
        (by simpa [storageIds] using hn)
    rw [← hrest]
    simpa [storageIds, showNotif] using h2

theorem resume_preserves_ids (s s' : SysState) (h : checkExistingOrdersE s = .ok s')
    (hn : (storageIds s).Nodup) : (storageIds s').Nodup := by
  unfold checkExistingOrdersE at h
  rcases except_bind_ok _ _ _ h with ⟨orders, _, hbody⟩
  simp only [] at hbody
  cases hL : latestActive (orders.filter (isActiveOrder s.now)) with
  | none =>
    rw [hL] at hbody
    simp only [Except.ok.injEq] at hbody
    rw [← hbody]; exact hn
  | some L =>
    rw [hL] at hbody
    simp only [] at hbody
    split_ifs at hbody with h1 h2 h3 h4
    · exact start_preserves_ids L.id s s' hbody hn
    · rcases except_bind_ok _ _ _ hbody with ⟨s1, hsave, hstart⟩
      exact start_preserves_ids L.id s1 s' hstart
        (save_preserves_ids _ _ _ s s1 hsave hn)
    · rcases except_bind_ok _ _ _ hbody with ⟨s1, hsave, hstart⟩
      exact start_preserves_ids L.id s1 s' hstart
        (save_preserves_ids _ _ _ s s1 hsave hn)
    · rcases except_bind_ok _ _ _ hbody with ⟨s1, hsave, hstart⟩
      exact start_preserves_ids L.id s1 s' hstart
        (save_preserves_ids _ _ _ s s1 hsave hn)
    · simp only [Except.ok.injEq] at hbody; rw [← hbody]; exact hn

theorem runOp_preserves_ids (op : NotifierOp) (s s' : SysState)
    (h : runOp op s = .ok s') (hn : (storageIds s).Nodup) : (storageIds s').Nodup := by
  cases op with
  | startTracking orderId => exact start_preserves_ids orderId s s' h hn
  | persistStatus orderId st ts => exact save_preserves_ids orderId st ts s s' h hn
  | getStatus orderId =>
    simp only [runOp, Except.ok.injEq] at h; rw [← h]; exact hn
  | resumeOnLoad => exact resume_preserves_ids s s' h hn
  | fireTimer => exact fire_preserves_ids s s' h hn
  | tick d =>
    simp only [runOp, Except.ok.injEq] at h; rw [← h]; simpa [storageIds] using hn

/-- C3: starting from a persisted collection whose ids are pairwise
distinct, any sequence of start-tracking, persist-status, get-status and
resume-on-load operations (and timer firings and clock advances) that runs
without a storage error leaves the persisted ids pairwise distinct:
`saveOrderStatus` is an upsert by id. -/
theorem persisted_ids_pairwise_distinct (ops : List NotifierOp) (s s' : SysState)
    (hrun : runOps ops s = .ok s') (h : (storageIds s).Nodup) :
    (storageIds s').Nodup := by
  induction ops generalizing s with
  | nil =>
    simp only [runOps, Except.ok.injEq] at hrun
    rw [← hrun]; exact h
  | cons op rest ih =>
    unfold runOps at hrun
    rcases except_bind_ok _ _ _ hrun with ⟨s1, hop, hrest⟩
    exact ih s1 hrest (runOp_preserves_ids op s s1 hop h)

/-- Witness for C3: a concrete operation sequence (persist for "A", start
tracking "B", fire one timer) run from an empty store keeps ids distinct. -/
theorem persisted_ids_pairwise_distinct_witness :
    (storageIds
      { storage := some (.ordersJson
          [{ id := "A", status := .Placed, timestamp := 0, lastUpdate := 0 },
           { id := "B", status := .Preparing, timestamp := 10000, lastUpdate := 10000 }]),
        now := 10000,
        timeouts :=
          [{ fireAt := 20000, orderId := "B", status := .Ready },
           { fireAt := 30000, orderId := "B", status := .OnTheWay },
           { fireAt := 45000, orderId := "B", status := .Delivered }],
        currentOrderId := some "B",
        writes :=
          [{ id := "A", status := .Placed, timestamp := 0, lastUpdate := 0 },
           { id := "B", status := .Placed, timestamp := 0, lastUpdate := 0 },
           { id := "B", status := .Preparing, timestamp := 10000, lastUpdate := 10000 }],
        notifs :=
          [{ orderId := "B", status := .Placed },
           { orderId := "B", status := .Preparing }],
        setOk := true }).Nodup :=
  persisted_ids_pairwise_distinct
    [.persistStatus "A" .Placed 0, .startTracking "B", .fireTimer]
    { storage := none, now := 0, timeouts := [], currentOrderId := none,
      writes := [], notifs := [], setOk := true }
    _ rfl (by decide)

/-- C5: for every non-empty orderId, `startOrderTracking(id)` followed
immediately by `getOrderStatus(id)` returns a record with status Placed
whose `timestamp` equals the tracking start time. -/
theorem start_tracking_then_get_placed (orderId : String) (s : SysState)
    (l : List OrderRecord) (hid : orderId ≠ "")
    (hp : parseOrders s.storage = .ok l) (hw : s.setOk = true) :
    ∃ s', startOrderTrackingE orderId s = .ok s' ∧
      getOrderStatusE orderId s' = .ok (some
        { id := orderId, status := .Placed, timestamp := s.now, lastUpdate := s.now }) := by
  refine ⟨_, startOrderTrackingE_ok orderId s l hp hw, ?_⟩
  rw [getOrderStatusE_ok orderId _
    (saveOrderStatusList orderId .Placed s.now s.now l) (by simp [parseOrders])]
  rw [saveOrderStatusList_eq_upsertFirst]
  exact congrArg Except.ok (getOrderStatusList_upsertFirst_same
    { id := orderId, status := .Placed, timestamp := s.now, lastUpdate := s.now } l)

/-- Witness for C5 at orderId "A" from an absent storage key. -/
theorem start_tracking_then_get_placed_witness :
    ∃ s', startOrderTrackingE "A"
        { storage := none, now := 0, timeouts := [], currentOrderId := none,
          writes := [], notifs := [], setOk := true } = .ok s' ∧
      getOrderStatusE "A" s' = .ok (some
        { id := "A", status := .Placed, timestamp := 0, lastUpdate := 0 }) :=
  start_tracking_then_get_placed "A"
    { storage := none, now := 0, timeouts := [], currentOrderId := none,
      writes := [], notifs := [], setOk := true }
    [] (by decide) rfl rfl

/-- C7: `saveOrderStatus` replaces the first record found by linear scan
with a matching id (keeping its position) or else appends a new record, and
the written record stores the caller's `timestamp` unchanged while its
`lastUpdate` is the write-time clock value. -/
theorem saveOrderStatus_upsert_characterization (orderId : String) (st : OrderStatus)
    (ts nowMs : Int) (orders : List OrderRecord) :
    ((∃ r ∈ orders, r.id = orderId) →
      ∃ pre mid post, orders = pre ++ mid :: post ∧ mid.id = orderId ∧
        (∀ p ∈ pre, p.id ≠ orderId) ∧
        saveOrderStatusList orderId st ts nowMs orders =
          pre ++ { id := orderId, status := st, timestamp := ts, lastUpdate := nowMs } :: post) ∧
    ((∀ r ∈ orders, r.id ≠ orderId) →
      saveOrderStatusList orderId st ts nowMs orders =
        orders ++ [{ id := orderId, status := st, timestamp := ts, lastUpdate := nowMs }]) ∧
    getOrderStatusList orderId (saveOrderStatusList orderId st ts nowMs orders) =
      some { id := orderId, status := st, timestamp := ts, lastUpdate := nowMs } := by
  rw [saveOrderStatusList_eq_upsertFirst]
  exact ⟨fun h => upsertFirst_of_mem
      { id := orderId, status := st, timestamp := ts, lastUpdate := nowMs } orders h,
    fun h => upsertFirst_of_not_mem
      { id := orderId, status := st, timestamp := ts, lastUpdate := nowMs } orders h,
    getOrderStatusList_upsertFirst_same
      { id := orderId, status := st, timestamp := ts, lastUpdate := nowMs } orders⟩

/-- Witness for C7 at a two-record store where "A" exists. -/
theorem saveOrderStatus_upsert_characterization_witness :
    ((∃ r ∈ [{ id := "B", status := OrderStatus.Placed, timestamp := 0, lastUpdate := 0 },
              { id := "A", status := OrderStatus.Placed, timestamp := 1, lastUpdate := 1 }],
        OrderRecord.id r = "A") →
      ∃ pre mid post,
        [{ id := "B", status := OrderStatus.Placed, timestamp := 0, lastUpdate := 0 },
         { id := "A", status := OrderStatus.Placed, timestamp := 1, lastUpdate := 1 }] =
          pre ++ mid :: post ∧ mid.id = "A" ∧
        (∀ p ∈ pre, OrderRecord.id p ≠ "A") ∧
        saveOrderStatusList "A" .Ready 5 7
          [{ id := "B", status := OrderStatus.Placed, timestamp := 0, lastUpdate := 0 },
           { id := "A", status := OrderStatus.Placed, timestamp := 1, lastUpdate := 1 }] =
          pre ++ { id := "A", status := .Ready, timestamp := 5, lastUpdate := 7 } :: post) ∧
    ((∀ r ∈ [{ id := "B", status := OrderStatus.Placed, timestamp := 0, lastUpdate := 0 },
              { id := "A", status := OrderStatus.Placed, timestamp := 1, lastUpdate := 1 }],
        OrderRecord.id r ≠ "A") →
      saveOrderStatusList "A" .Ready 5 7
        [{ id := "B", status := OrderStatus.Placed, timestamp := 0, lastUpdate := 0 },
         { id := "A", status := OrderStatus.Placed, timestamp := 1, lastUpdate := 1 }] =
        [{ id := "B", status := OrderStatus.Placed, timestamp := 0, lastUpdate := 0 },
         { id := "A", status := OrderStatus.Placed, timestamp := 1, lastUpdate := 1 }] ++
          [{ id := "A", status := .Ready, timestamp := 5, lastUpdate := 7 }]) ∧
    getOrderStatusList "A" (saveOrderStatusList "A" .Ready 5 7
        [{ id := "B", status := OrderStatus.Placed, timestamp := 0, lastUpdate := 0 },
         { id := "A", status := OrderStatus.Placed, timestamp := 1, lastUpdate := 1 }]) =
      some { id := "A", status := .Ready, timestamp := 5, lastUpdate := 7 } :=
  saveOrderStatus_upsert_characterization "A" .Ready 5 7
    [{ id := "B", status := .Placed, timestamp := 0, lastUpdate := 0 },
     { id := "A", status := .Placed, timestamp := 1, lastUpdate := 1 }]

/-- C9 (frame): `saveOrderStatus` leaves every record with a different id
unchanged at its original position, and when no record matches, the new
record is appended after all pre-existing records. -/
theorem saveOrderStatus_frame (orderId : String) (st : OrderStatus)
    (ts nowMs : Int) (orders : List OrderRecord) :
    (∀ (j : Nat) (hj : j < orders.length), (orders.get ⟨j, hj⟩).id ≠ orderId →
      (saveOrderStatusList orderId st ts nowMs orders)[j]? = some (orders.get ⟨j, hj⟩)) ∧
    ((∀ r ∈ orders, r.id ≠ orderId) →
      saveOrderStatusList orderId st ts nowMs orders =
        orders ++ [{ id := orderId, status := st, timestamp := ts, lastUpdate := nowMs }]) := by
  rw [saveOrderStatusList_eq_upsertFirst]
  exact ⟨fun j hj h => upsertFirst_getElem? _ orders j hj h,
    fun h => upsertFirst_of_not_mem _ orders h⟩

/-- Witness for C9 at a two-record store: position 0 ("B") is untouched by
an upsert for "A". -/
theorem saveOrderStatus_frame_witness :
    (∀ (j : Nat)
      (hj : j < ([{ id := "B", status := OrderStatus.Placed, timestamp := 0, lastUpdate := 0 },
                   { id := "A", status := OrderStatus.Placed, timestamp := 1, lastUpdate := 1 }] :
                  List OrderRecord).length),
      (([{ id := "B", status := OrderStatus.Placed, timestamp := 0, lastUpdate := 0 },
         { id := "A", status := OrderStatus.Placed, timestamp := 1, lastUpdate := 1 }] :
          List OrderRecord).get ⟨j, hj⟩).id ≠ "A" →
      (saveOrderStatusList "A" .Ready 5 7
        [{ id := "B", status := OrderStatus.Placed, timestamp := 0, lastUpdate := 0 },
         { id := "A", status := OrderStatus.Placed, timestamp := 1, lastUpdate := 1 }])[j]? =
        some (([{ id := "B", status := OrderStatus.Placed, timestamp := 0, lastUpdate := 0 },
                { id := "A", status := OrderStatus.Placed, timestamp := 1, lastUpdate := 1 }] :
                List OrderRecord).get ⟨j, hj⟩)) ∧
    ((∀ r ∈ [{ id := "B", status := OrderStatus.Placed, timestamp := 0, lastUpdate := 0 },
             { id := "A", status := OrderStatus.Placed, timestamp := 1, lastUpdate := 1 }],
        OrderRecord.id r ≠ "A") →
      saveOrderStatusList "A" .Ready 5 7
        [{ id := "B", status := OrderStatus.Placed, timestamp := 0, lastUpdate := 0 },
         { id := "A", status := OrderStatus.Placed, timestamp := 1, lastUpdate := 1 }] =
        [{ id := "B", status := OrderStatus.Placed, timestamp := 0, lastUpdate := 0 },
         { id := "A", status := OrderStatus.Placed, timestamp := 1, lastUpdate := 1 }] ++
          [{ id := "A", status := .Ready, timestamp := 5, lastUpdate := 7 }]) :=
  saveOrderStatus_frame "A" .Ready 5 7
    [{ id := "B", status := .Placed, timestamp := 0, lastUpdate := 0 },
     { id := "A", status := .Placed, timestamp := 1, lastUpdate := 1 }]

/-- C8: with a malformed persisted value, `getOrderStatus`,
`startOrderTracking`, `checkExistingOrders` and `saveOrderStatus` all throw
the JSON parse error to the caller (the error return carries no state: no
partial write, no retry); and with a failing `setItem`, `saveOrderStatus`
throws the write error. -/
theorem storage_errors_propagate (s s2 : SysState) (orderId : String)
    (st : OrderStatus) (ts : Int) (l : List OrderRecord)
    (hbad : s.storage = some .malformed)
    (hp2 : parseOrders s2.storage = .ok l) (hq : s2.setOk = false) :
    getOrderStatusE orderId s = .error "SyntaxError: JSON.parse" ∧
    startOrderTrackingE orderId s = .error "SyntaxError: JSON.parse" ∧
    checkExistingOrdersE s = .error "SyntaxError: JSON.parse" ∧
    saveOrderStatusE orderId st ts s = .error "SyntaxError: JSON.parse" ∧
    saveOrderStatusE orderId st ts s2 = .error "QuotaExceededError" := by
  refine ⟨?_, ?_, ?_, ?_, ?_⟩
  · simp [getOrderStatusE, hbad, parseOrders, Bind.bind, Except.bind]
  · simp [startOrderTrackingE, saveOrderStatusE, hbad, parseOrders,
      Bind.bind, Except.bind]
  · simp [checkExistingOrdersE, hbad, parseOrders, Bind.bind, Except.bind]
  · simp [saveOrderStatusE, hbad, parseOrders, Bind.bind, Except.bind]
  · simp [saveOrderStatusE, hp2, hq, Bind.bind, Except.bind]

/-- Witness for C8 at a malformed store and a quota-failing store. -/
theorem storage_errors_propagate_witness :
    getOrderStatusE "A"
      { storage := some .malformed, now := 0, timeouts := [],
        currentOrderId := none, writes := [], notifs := [], setOk := true } =
      .error "SyntaxError: JSON.parse" ∧
    startOrderTrackingE "A"
      { storage := some .malformed, now := 0, timeouts := [],
        currentOrderId := none, writes := [], notifs := [], setOk := true } =
      .error "SyntaxError: JSON.parse" ∧
    checkExistingOrdersE
      { storage := some .malformed, now := 0, timeouts := [],
        currentOrderId := none, writes := [], notifs := [], setOk := true } =
      .error "SyntaxError: JSON.parse" ∧
    saveOrderStatusE "A" .Placed 0
      { storage := some .malformed, now := 0, timeouts := [],
        currentOrderId := none, writes := [], notifs := [], setOk := true } =
      .error "SyntaxError: JSON.parse" ∧
    saveOrderStatusE "A" .Placed 0
      { storage := none, now := 0, timeouts := [], currentOrderId := none,
        writes := [], notifs := [], setOk := false } =
      .error "QuotaExceededError" :=
  storage_errors_propagate
    { storage := some .malformed, now := 0, timeouts := [],
      currentOrderId := none, writes := [], notifs := [], setOk := true }
    { storage := none, now := 0, timeouts := [], currentOrderId := none,
      writes := [], notifs := [], setOk := false }
    "A" .Placed 0 [] rfl rfl rfl

/-- C10: with the storage key absent, every read substitutes the empty
collection: `getOrderStatus` returns no record for any id,
`checkExistingOrders` leaves the state exactly unchanged (no tracking, no
write, no notification), and `saveOrderStatus` creates a fresh one-element
collection. -/
theorem absent_key_defaults_to_empty (s : SysState) (orderId : String)
    (st : OrderStatus) (ts : Int) (habs : s.storage = none) (hw : s.setOk = true) :
    getOrderStatusE orderId s = .ok none ∧
    checkExistingOrdersE s = .ok s ∧
    saveOrderStatusE orderId st ts s = .ok { s with
      storage := some (.ordersJson
        [{ id := orderId, status := st, timestamp := ts, lastUpdate := s.now }]),
      writes := s.writes ++
        [{ id := orderId, status := st, timestamp := ts, lastUpdate := s.now }] } := by
  have hp : parseOrders s.storage = .ok [] := by rw [habs]; rfl
  refine ⟨?_, ?_, ?_⟩
  · rw [getOrderStatusE_ok orderId s [] hp]; rfl
  · simp [checkExistingOrdersE, hp, Bind.bind, Except.bind, latestActive]
  · have h := saveOrderStatusE_ok orderId st ts s [] hp hw
    simpa [saveOrderStatusList] using h

/-- Witness for C10 at an absent key with clock 5. -/
theorem absent_key_defaults_to_empty_witness :
    getOrderStatusE "A"
      { storage := none, now := 5, timeouts := [], currentOrderId := none,
        writes := [], notifs := [], setOk := true } = .ok none ∧
    checkExistingOrdersE
      { storage := none, now := 5, timeouts := [], currentOrderId := none,
        writes := [], notifs := [], setOk := true } = .ok
      { storage := none, now := 5, timeouts := [], currentOrderId := none,
        writes := [], notifs := [], setOk := true } ∧
    saveOrderStatusE "A" .Ready 3
      { storage := none, now := 5, timeouts := [], currentOrderId := none,
        writes := [], notifs := [], setOk := true } = .ok
      { storage := some (.ordersJson
          [{ id := "A", status := .Ready, timestamp := 3, lastUpdate := 5 }]),
        now := 5, timeouts := [], currentOrderId := none,
        writes := [{ id := "A", status := .Ready, timestamp := 3, lastUpdate := 5 }],
        notifs := [], setOk := true } :=
  absent_key_defaults_to_empty
    { storage := none, now := 5, timeouts := [], currentOrderId := none,
      writes := [], notifs := [], setOk := true }
    "A" .Ready 3 rfl rfl

theorem extractNext_mem (l : List Timeout) (t : Timeout) (rest : List Timeout)
    (h : extractNext l = some (t, rest)) : t ∈ l := by
  induction l generalizing t rest with
  | nil => simp [extractNext] at h
  | cons a l ih =>
    simp only [extractNext] at h
    cases hx : extractNext l with
    | none =>
      rw [hx] at h
      simp only [Option.some.injEq, Prod.mk.injEq] at h
      simp [h.1]
    | some ur =>
      obtain ⟨u, r'⟩ := ur
      rw [hx] at h
      by_cases hc : u.fireAt < a.fireAt
      · simp only [hc, if_true, Option.some.injEq, Prod.mk.injEq] at h
        exact List.mem_cons.mpr (Or.inr (h.1 ▸ ih u r' hx))
      · simp only [hc, if_false, Option.some.injEq, Prod.mk.injEq] at h
        simp [← h.1]

theorem extractNext_eq_none (l : List Timeout) (h : extractNext l = none) : l = [] := by
  cases l with
  | nil => rfl
  | cons a rest =>
    exfalso
    simp only [extractNext] at h
    cases hx : extractNext rest with
    | none => rw [hx] at h; simp at h
    | some ur =>
      obtain ⟨u, r'⟩ := ur
      rw [hx] at h
      by_cases hc : u.fireAt < a.fireAt <;> simp [hc] at h

theorem extractNext_cons_of_min (t : Timeout) (rest : List Timeout)
    (h : ∀ u ∈ rest, ¬ u.fireAt < t.fireAt) : extractNext (t :: rest) = some (t, rest) := by
  cases hx : extractNext rest with
  | none => rw [extractNext_eq_none rest hx]; simp [extractNext]
  | some ur =>
    obtain ⟨u, r'⟩ := ur
    have hu := h u (extractNext_mem rest u r' hx)
    simp [extractNext, hx, hu]

theorem except_ok_bind {α β : Type} (a : α) (f : α → Except String β) :
    ((Except.ok a : Except String α) >>= f) = f a := rfl

/-- C4: from a clean page state, `startOrderTracking(id)` followed by its
four scheduled transitions firing uninterrupted (exact-timer semantics)
ends at clock start+45000 with no pending timeout, `getOrderStatus(id)`
returning status Delivered, and exactly five persistence writes for that id,
whose timestamps sit at offsets 0 / 10000 / 20000 / 30000 / 45000 ms from
the start time. -/
theorem full_ladder_delivers (t0 : Int) (orderId : String) (l : List OrderRecord) :
    ∃ s4,
      (startOrderTrackingE orderId
          { storage := some (.ordersJson l), now := t0, timeouts := [],
            currentOrderId := none, writes := [], notifs := [], setOk := true }
        >>= fireNextE >>= fireNextE >>= fireNextE >>= fireNextE) = .ok s4 ∧
      s4.now = t0 + TIMING_DELIVERED ∧
      s4.timeouts = [] ∧
      getOrderStatusE orderId s4 = .ok (some
        { id := orderId, status := .Delivered,
          timestamp := t0 + TIMING_DELIVERED, lastUpdate := t0 + TIMING_DELIVERED }) ∧
      s4.writes =
        [ { id := orderId, status := .Placed, timestamp := t0, lastUpdate := t0 },
          { id := orderId, status := .Preparing, timestamp := t0 + TIMING_PREPARING,
            lastUpdate := t0 + TIMING_PREPARING },
          { id := orderId, status := .Ready, timestamp := t0 + TIMING_READY,
            lastUpdate := t0 + TIMING_READY },
          { id := orderId, status := .OnTheWay, timestamp := t0 + TIMING_ON_WAY,
            lastUpdate := t0 + TIMING_ON_WAY },
          { id := orderId, status := .Delivered, timestamp := t0 + TIMING_DELIVERED,
            lastUpdate := t0 + TIMING_DELIVERED } ] ∧
      (s4.writes.filter (fun w => w.id == orderId)).length = 5 := by
  have hT : TIMING_PREPARING = 10000 ∧ TIMING_READY = 20000 ∧
      TIMING_ON_WAY = 30000 ∧ TIMING_DELIVERED = 45000 := ⟨rfl, rfl, rfl, rfl⟩
  -- timeouts
  let T1 : Timeout := { fireAt := t0 + TIMING_PREPARING, orderId := orderId, status := .Preparing }
  let T2 : Timeout := { fireAt := t0 + TIMING_READY, orderId := orderId, status := .Ready }
  let T3 : Timeout := { fireAt := t0 + TIMING_ON_WAY, orderId := orderId, status := .OnTheWay }
  let T4 : Timeout := { fireAt := t0 + TIMING_DELIVERED, orderId := orderId, status := .Delivered }
  -- record lists after each write
  let L0 := saveOrderStatusList orderId .Placed t0 t0 l
  let L1 := saveOrderStatusList orderId .Preparing (t0 + TIMING_PREPARING) (t0 + TIMING_PREPARING) L0
  let L2 := saveOrderStatusList orderId .Ready (t0 + TIMING_READY) (t0 + TIMING_READY) L1
  let L3 := saveOrderStatusList orderId .OnTheWay (t0 + TIMING_ON_WAY) (t0 + TIMING_ON_WAY) L2
  let L4 := saveOrderStatusList orderId .Delivered (t0 + TIMING_DELIVERED) (t0 + TIMING_DELIVERED) L3
  -- write events
  let W0 : WriteEvent := { id := orderId, status := .Placed, timestamp := t0, lastUpdate := t0 }
  let W1 : WriteEvent := { id := orderId, status := .Preparing, timestamp := t0 + TIMING_PREPARING, lastUpdate := t0 + TIMING_PREPARING }
  let W2 : WriteEvent := { id := orderId, status := .Ready, timestamp := t0 + TIMING_READY, lastUpdate := t0 + TIMING_READY }
  let W3 : WriteEvent := { id := orderId, status := .OnTheWay, timestamp := t0 + TIMING_ON_WAY, lastUpdate := t0 + TIMING_ON_WAY }
  let W4 : WriteEvent := { id := orderId, status := .Delivered, timestamp := t0 + TIMING_DELIVERED, lastUpdate := t0 + TIMING_DELIVERED }
  let N0 : NotificationEvent := { orderId := orderId, status := .Placed }
  let N1 : NotificationEvent := { orderId := orderId, status := .Preparing }
  let N2 : NotificationEvent := { orderId := orderId, status := .Ready }
  let N3 : NotificationEvent := { orderId := orderId, status := .OnTheWay }
  let N4 : NotificationEvent := { orderId := orderId, status := .Delivered }
  let S1 : SysState := { storage := some (.ordersJson L0), now := t0, timeouts := [T1, T2, T3, T4], currentOrderId := some orderId, writes := [W0], notifs := [N0], setOk := true }
  let S2 : SysState := { storage := some (.ordersJson L1), now := t0 + TIMING_PREPARING, timeouts := [T2, T3, T4], currentOrderId := some orderId, writes := [W0, W1], notifs := [N0, N1], setOk := true }
  let S3 : SysState := { storage := some (.ordersJson L2), now := t0 + TIMING_READY, timeouts := [T3, T4], currentOrderId := some orderId, writes := [W0, W1, W2], notifs := [N0, N1, N2], setOk := true }
  let S4 : SysState := { storage := some (.ordersJson L3), now := t0 + TIMING_ON_WAY, timeouts := [T4], currentOrderId := some orderId, writes := [W0, W1, W2, W3], notifs := [N0, N1, N2, N3], setOk := true }
  let S5 : SysState := { storage := some (.ordersJson L4), now := t0 + TIMING_DELIVERED, timeouts := [], currentOrderId := some orderId, writes := [W0, W1, W2, W3, W4], notifs := [N0, N1, N2, N3, N4], setOk := true }
  have h1 : startOrderTrackingE orderId
      { storage := some (.ordersJson l), now := t0, timeouts := [],
        currentOrderId := none, writes := [], notifs := [], setOk := true } = .ok S1 :=
    startOrderTrackingE_ok orderId _ l rfl rfl
  have hx1 : extractNext S1.timeouts = some (T1, [T2, T3, T4]) := by
    apply extractNext_cons_of_min
    intro u hu
    simp only [List.mem_cons, List.not_mem_nil, or_false] at hu
    rcases hu with rfl | rfl | rfl <;>
      simp [T1, T2, T3, T4, TIMING_PREPARING, TIMING_READY, TIMING_ON_WAY, TIMING_DELIVERED]
  have h2 : fireNextE S1 = .ok S2 := fireNextE_ok S1 T1 [T2, T3, T4] L0 hx1 rfl rfl
  have hx2 : extractNext S2.timeouts = some (T2, [T3, T4]) := by
    apply extractNext_cons_of_min
    intro u hu
    simp only [List.mem_cons, List.not_mem_nil, or_false] at hu
    rcases hu with rfl | rfl <;>
      simp [T2, T3, T4, TIMING_READY, TIMING_ON_WAY, TIMING_DELIVERED]
  have h3 : fireNextE S2 = .ok S3 := fireNextE_ok S2 T2 [T3, T4] L1 hx2 rfl rfl
  have hx3 : extractNext S3.timeouts = some (T3, [T4]) := by
    apply extractNext_cons_of_min
    intro u hu
    simp only [List.mem_cons, List.not_mem_nil, or_false] at hu
    subst hu
    simp [T3, T4, TIMING_ON_WAY, TIMING_DELIVERED]
  have h4 : fireNextE S3 = .ok S4 := fireNextE_ok S3 T3 [T4] L2 hx3 rfl rfl
  have hx4 : extractNext S4.timeouts = some (T4, []) := by
    apply extractNext_cons_of_min
    intro u hu
    simp at hu
  have h5 : fireNextE S4 = .ok S5 := fireNextE_ok S4 T4 [] L3 hx4 rfl rfl
  refine ⟨S5, ?_, rfl, rfl, ?_, rfl, by simp [S5, W0, W1, W2, W3, W4]⟩
  · rw [h1, except_ok_bind, h2, except_ok_bind, h3, except_ok_bind, h4, except_ok_bind, h5]
  · rw [getOrderStatusE_ok orderId S5 L4 rfl]
    show Except.ok (getOrderStatusList orderId L4) = _
    rw [show L4 = saveOrderStatusList orderId .Delivered (t0 + TIMING_DELIVERED) (t0 + TIMING_DELIVERED) L3 from rfl,
      saveOrderStatusList_eq_upsertFirst]
    exact congrArg Except.ok (getOrderStatusList_upsertFirst_same
      { id := orderId, status := .Delivered, timestamp := t0 + TIMING_DELIVERED,
        lastUpdate := t0 + TIMING_DELIVERED } L3)

/-- C6: starting tracking for id2 right after id1 cancels every
not-yet-fired scheduled transition of id1 (the pending queue holds only id2
callbacks), and once the remaining ladder elapses only id2 transitions have
fired (writes and notifications after the second start are exactly the four
id2 ones) while id1 keeps the status it had reached at cancellation
(Placed). -/
theorem second_start_cancels_first (t0 : Int) (id1 id2 : String)
    (l : List OrderRecord) (h12 : id1 ≠ id2) :
    ∃ s1 s2 sF,
      startOrderTrackingE id1
        { storage := some (.ordersJson l), now := t0, timeouts := [],
          currentOrderId := none, writes := [], notifs := [], setOk := true } = .ok s1 ∧
      startOrderTrackingE id2 s1 = .ok s2 ∧
      (∀ t ∈ s2.timeouts, t.orderId = id2) ∧
      (fireNextE s2 >>= fireNextE >>= fireNextE >>= fireNextE) = .ok sF ∧
      sF.timeouts = [] ∧
      sF.writes = s2.writes ++
        [ { id := id2, status := .Preparing, timestamp := t0 + TIMING_PREPARING,
            lastUpdate := t0 + TIMING_PREPARING },
          { id := id2, status := .Ready, timestamp := t0 + TIMING_READY,
            lastUpdate := t0 + TIMING_READY },
          { id := id2, status := .OnTheWay, timestamp := t0 + TIMING_ON_WAY,
            lastUpdate := t0 + TIMING_ON_WAY },
          { id := id2, status := .Delivered, timestamp := t0 + TIMING_DELIVERED,
            lastUpdate := t0 + TIMING_DELIVERED } ] ∧
      sF.notifs = s2.notifs ++
        [ { orderId := id2, status := .Preparing }, { orderId := id2, status := .Ready },
          { orderId := id2, status := .OnTheWay }, { orderId := id2, status := .Delivered } ] ∧
      getOrderStatusE id1 sF = .ok (some
        { id := id1, status := .Placed, timestamp := t0, lastUpdate := t0 }) := by
  let T1 : Timeout := { fireAt := t0 + TIMING_PREPARING, orderId := id2, status := .Preparing }
  let T2 : Timeout := { fireAt := t0 + TIMING_READY, orderId := id2, status := .Ready }
  let T3 : Timeout := { fireAt := t0 + TIMING_ON_WAY, orderId := id2, status := .OnTheWay }
  let T4 : Timeout := { fireAt := t0 + TIMING_DELIVERED, orderId := id2, status := .Delivered }
  let R1 : OrderRecord := { id := id1, status := .Placed, timestamp := t0, lastUpdate := t0 }
  let L0 := saveOrderStatusList id1 .Placed t0 t0 l
  let M0 := saveOrderStatusList id2 .Placed t0 t0 L0
  let M1 := saveOrderStatusList id2 .Preparing (t0 + TIMING_PREPARING) (t0 + TIMING_PREPARING) M0
  let M2 := saveOrderStatusList id2 .Ready (t0 + TIMING_READY) (t0 + TIMING_READY) M1
  let M3 := saveOrderStatusList id2 .OnTheWay (t0 + TIMING_ON_WAY) (t0 + TIMING_ON_WAY) M2
  let M4 := saveOrderStatusList id2 .Delivered (t0 + TIMING_DELIVERED) (t0 + TIMING_DELIVERED) M3
  let WA : WriteEvent := { id := id1, status := .Placed, timestamp := t0, lastUpdate := t0 }
  let WB : WriteEvent := { id := id2, status := .Placed, timestamp := t0, lastUpdate := t0 }
  let W1 : WriteEvent := { id := id2, status := .Preparing, timestamp := t0 + TIMING_PREPARING, lastUpdate := t0 + TIMING_PREPARING }
  let W2 : WriteEvent := { id := id2, status := .Ready, timestamp := t0 + TIMING_READY, lastUpdate := t0 + TIMING_READY }
  let W3 : WriteEvent := { id := id2, status := .OnTheWay, timestamp := t0 + TIMING_ON_WAY, lastUpdate := t0 + TIMING_ON_WAY }
  let W4 : WriteEvent := { id := id2, status := .Delivered, timestamp := t0 + TIMING_DELIVERED, lastUpdate := t0 + TIMING_DELIVERED }
  let NA : NotificationEvent := { orderId := id1, status := .Placed }
  let NB : NotificationEvent := { orderId := id2, status := .Placed }
  let N1 : NotificationEvent := { orderId := id2, status := .Preparing }
  let N2 : NotificationEvent := { orderId := id2, status := .Ready }
  let N3 : NotificationEvent := { orderId := id2, status := .OnTheWay }
  let N4 : NotificationEvent := { orderId := id2, status := .Delivered }
  let S1 : SysState := { storage := some (.ordersJson L0), now := t0, timeouts := [{ fireAt := t0 + TIMING_PREPARING, orderId := id1, status := .Preparing }, { fireAt := t0 + TIMING_READY, orderId := id1, status := .Ready }, { fireAt := t0 + TIMING_ON_WAY, orderId := id1, status := .OnTheWay }, { fireAt := t0 + TIMING_DELIVERED, orderId := id1, status := .Delivered }], currentOrderId := some id1, writes := [WA], notifs := [NA], setOk := true }
  let S2 : SysState := { storage := some (.ordersJson M0), now := t0, timeouts := [T1, T2, T3, T4], currentOrderId := some id2, writes := [WA, WB], notifs := [NA, NB], setOk := true }
  let S3 : SysState := { storage := some (.ordersJson M1), now := t0 + TIMING_PREPARING, timeouts := [T2, T3, T4], currentOrderId := some id2, writes := [WA, WB, W1], notifs := [NA, NB, N1], setOk := true }
  let S4 : SysState := { storage := some (.ordersJson M2), now := t0 + TIMING_READY, timeouts := [T3, T4], currentOrderId := some id2, writes := [WA, WB, W1, W2], notifs := [NA, NB, N1, N2], setOk := true }
  let S5 : SysState := { storage := some (.ordersJson M3), now := t0 + TIMING_ON_WAY, timeouts := [T4], currentOrderId := some id2, writes := [WA, WB, W1, W2, W3], notifs := [NA, NB, N1, N2, N3], setOk := true }
  let S6 : SysState := { storage := some (.ordersJson M4), now := t0 + TIMING_DELIVERED, timeouts := [], currentOrderId := some id2, writes := [WA, WB, W1, W2, W3, W4], notifs := [NA, NB, N1, N2, N3, N4], setOk := true }
  have h1 : startOrderTrackingE id1
      { storage := some (.ordersJson l), now := t0, timeouts := [],
        currentOrderId := none, writes := [], notifs := [], setOk := true } = .ok S1 :=
    startOrderTrackingE_ok id1 _ l rfl rfl
  have h2 : startOrderTrackingE id2 S1 = .ok S2 :=
    startOrderTrackingE_ok id2 S1 L0 rfl rfl
  have hx1 : extractNext S2.timeouts = some (T1, [T2, T3, T4]) := by
    apply extractNext_cons_of_min
    intro u hu
    simp only [List.mem_cons, List.not_mem_nil, or_false] at hu
    rcases hu with rfl | rfl | rfl <;>
      simp [T1, T2, T3, T4, TIMING_PREPARING, TIMING_READY, TIMING_ON_WAY, TIMING_DELIVERED]
  have h3 : fireNextE S2 = .ok S3 := fireNextE_ok S2 T1 [T2, T3, T4] M0 hx1 rfl rfl
  have hx2 : extractNext S3.timeouts = some (T2, [T3, T4]) := by
    apply extractNext_cons_of_min
    intro u hu
    simp only [List.mem_cons, List.not_mem_nil, or_false] at hu
    rcases hu with rfl | rfl <;>
      simp [T2, T3, T4, TIMING_READY, TIMING_ON_WAY, TIMING_DELIVERED]
  have h4 : fireNextE S3 = .ok S4 := fireNextE_ok S3 T2 [T3, T4] M1 hx2 rfl rfl
  have hx3 : extractNext S4.timeouts = some (T3, [T4]) := by
    apply extractNext_cons_of_min
    intro u hu
    simp only [List.mem_cons, List.not_mem_nil, or_false] at hu
    subst hu
    simp [T3, T4, TIMING_ON_WAY, TIMING_DELIVERED]
  have h5 : fireNextE S4 = .ok S5 := fireNextE_ok S4 T3 [T4] M2 hx3 rfl rfl
  have hx4 : extractNext S5.timeouts = some (T4, []) := by
    apply extractNext_cons_of_min
    intro u hu
    simp at hu
  have h6 : fireNextE S5 = .ok S6 := fireNextE_ok S5 T4 [] M3 hx4 rfl rfl
  have hget : getOrderStatusE id1 S6 = .ok (some R1) := by
    rw [getOrderStatusE_ok id1 S6 M4 rfl]
    show Except.ok (getOrderStatusList id1 M4) = _
    have e4 : getOrderStatusList id1 M4 = getOrderStatusList id1 M3 := by
      rw [show M4 = saveOrderStatusList id2 .Delivered (t0 + TIMING_DELIVERED) (t0 + TIMING_DELIVERED) M3 from rfl,
        saveOrderStatusList_eq_upsertFirst]
      exact getOrderStatusList_upsertFirst_other _ M3 id1 h12
    have e3 : getOrderStatusList id1 M3 = getOrderStatusList id1 M2 := by
      rw [show M3 = saveOrderStatusList id2 .OnTheWay (t0 + TIMING_ON_WAY) (t0 + TIMING_ON_WAY) M2 from rfl,
        saveOrderStatusList_eq_upsertFirst]
      exact getOrderStatusList_upsertFirst_other _ M2 id1 h12
    have e2 : getOrderStatusList id1 M2 = getOrderStatusList id1 M1 := by
      rw [show M2 = saveOrderStatusList id2 .Ready (t0 + TIMING_READY) (t0 + TIMING_READY) M1 from rfl,
        saveOrderStatusList_eq_upsertFirst]
      exact getOrderStatusList_upsertFirst_other _ M1 id1 h12
    have e1 : getOrderStatusList id1 M1 = getOrderStatusList id1 M0 := by
      rw [show M1 = saveOrderStatusList id2 .Preparing (t0 + TIMING_PREPARING) (t0 + TIMING_PREPARING) M0 from rfl,
        saveOrderStatusList_eq_upsertFirst]
      exact getOrderStatusList_upsertFirst_other _ M0 id1 h12
    have e0 : getOrderStatusList id1 M0 = getOrderStatusList id1 L0 := by
      rw [show M0 = saveOrderStatusList id2 .Placed t0 t0 L0 from rfl,
        saveOrderStatusList_eq_upsertFirst]
      exact getOrderStatusList_upsertFirst_other _ L0 id1 h12
    have eL : getOrderStatusList id1 L0 = some R1 := by
      rw [show L0 = saveOrderStatusList id1 .Placed t0 t0 l from rfl,
        saveOrderStatusList_eq_upsertFirst]
      exact getOrderStatusList_upsertFirst_same R1 l
    rw [e4, e3, e2, e1, e0, eL]
  refine ⟨S1, S2, S6, h1, h2, ?_, ?_, rfl, rfl, rfl, hget⟩
  · intro t ht
    simp only [List.mem_cons, List.not_mem_nil, or_false] at ht
    rcases ht with rfl | rfl | rfl | rfl <;> rfl
  · rw [h3, except_ok_bind, h4, except_ok_bind, h5, except_ok_bind, h6]

/-- Witness for C6 at ids "A" and "B" from an empty store at clock 0. -/
theorem second_start_cancels_first_witness :
    ∃ s1 s2 sF,
      startOrderTrackingE "A"
        { storage := some (.ordersJson []), now := 0, timeouts := [],
          currentOrderId := none, writes := [], notifs := [], setOk := true } = .ok s1 ∧
      startOrderTrackingE "B" s1 = .ok s2 ∧
      (∀ t ∈ s2.timeouts, Timeout.orderId t = "B") ∧
      (fireNextE s2 >>= fireNextE >>= fireNextE >>= fireNextE) = .ok sF ∧
      sF.timeouts = [] ∧
      sF.writes = s2.writes ++
        [ { id := "B", status := .Preparing, timestamp := 0 + TIMING_PREPARING,
            lastUpdate := 0 + TIMING_PREPARING },
          { id := "B", status := .Ready, timestamp := 0 + TIMING_READY,
            lastUpdate := 0 + TIMING_READY },
          { id := "B", status := .OnTheWay, timestamp := 0 + TIMING_ON_WAY,
            lastUpdate := 0 + TIMING_ON_WAY },
          { id := "B", status := .Delivered, timestamp := 0 + TIMING_DELIVERED,
            lastUpdate := 0 + TIMING_DELIVERED } ] ∧
      sF.notifs = s2.notifs ++
        [ { orderId := "B", status := .Preparing }, { orderId := "B", status := .Ready },
          { orderId := "B", status := .OnTheWay }, { orderId := "B", status := .Delivered } ] ∧
      getOrderStatusE "A" sF = .ok (some
        { id := "A", status := .Placed, timestamp := 0, lastUpdate := 0 }) :=
  second_start_cancels_first 0 "A" "B" [] (by decide)

/-- C2: resume-on-load over one non-Delivered record with `lastUpdate` 5s
old and `timestamp` 12s old (Preparing window) persists status Preparing
with the backdated timestamp `originalTimestamp + 10000` (lastUpdate = now)
and then restarts tracking for the same id, rescheduling the full
four-transition ladder at full offsets from now. -/
theorem resume_preparing_window_backdates (t0 : Int) (orderId : String)
    (st : OrderStatus) (hst : st ≠ .Delivered) :
    ∃ s', checkExistingOrdersE
        { storage := some (.ordersJson
            [{ id := orderId, status := st, timestamp := t0 - 12000, lastUpdate := t0 - 5000 }]),
          now := t0, timeouts := [], currentOrderId := none,
          writes := [], notifs := [], setOk := true } = .ok s' ∧
      s'.writes =
        [ { id := orderId, status := .Preparing,
            timestamp := (t0 - 12000) + TIMING_PREPARING, lastUpdate := t0 },
          { id := orderId, status := .Placed, timestamp := t0, lastUpdate := t0 } ] ∧
      s'.currentOrderId = some orderId ∧
      s'.timeouts =
        [ { fireAt := t0 + TIMING_PREPARING, orderId := orderId, status := .Preparing },
          { fireAt := t0 + TIMING_READY, orderId := orderId, status := .Ready },
          { fireAt := t0 + TIMING_ON_WAY, orderId := orderId, status := .OnTheWay },
          { fireAt := t0 + TIMING_DELIVERED, orderId := orderId, status := .Delivered } ] := by
  let r : OrderRecord := { id := orderId, status := st, timestamp := t0 - 12000, lastUpdate := t0 - 5000 }
  let s0 : SysState := { storage := some (.ordersJson [r]), now := t0, timeouts := [], currentOrderId := none, writes := [], notifs := [], setOk := true }
  let P0 := saveOrderStatusList orderId .Preparing ((t0 - 12000) + TIMING_PREPARING) t0 [r]
  let WP : WriteEvent := { id := orderId, status := .Preparing, timestamp := (t0 - 12000) + TIMING_PREPARING, lastUpdate := t0 }
  let SA : SysState := { storage := some (.ordersJson P0), now := t0, timeouts := [], currentOrderId := none, writes := [WP], notifs := [], setOk := true }
  let P1 := saveOrderStatusList orderId .Placed t0 t0 P0
  let SB : SysState := { storage := some (.ordersJson P1), now := t0, timeouts := [{ fireAt := t0 + TIMING_PREPARING, orderId := orderId, status := .Preparing }, { fireAt := t0 + TIMING_READY, orderId := orderId, status := .Ready }, { fireAt := t0 + TIMING_ON_WAY, orderId := orderId, status := .OnTheWay }, { fireAt := t0 + TIMING_DELIVERED, orderId := orderId, status := .Delivered }], currentOrderId := some orderId, writes := [WP, { id := orderId, status := .Placed, timestamp := t0, lastUpdate := t0 }], notifs := [{ orderId := orderId, status := .Placed }], setOk := true }
  have hact : isActiveOrder t0 r = true := by
    simp only [isActiveOrder, r, TIMING_DELIVERED, Bool.and_eq_true, decide_eq_true_eq,
      Bool.not_eq_true', beq_eq_false_iff_ne, ne_eq]
    exact ⟨by omega, hst⟩
  have hfil : List.filter (isActiveOrder t0) [r] = [r] := by
    rw [List.filter_cons_of_pos hact]; rfl
  have hlat : latestActive [r] = some r := by simp [latestActive]
  have hcond1 : ¬(t0 - (t0 - 12000) < TIMING_PREPARING) := by
    simp only [TIMING_PREPARING]; omega
  have hcond2 : t0 - (t0 - 12000) < TIMING_READY := by
    simp only [TIMING_READY]; omega
  have hs1 : saveOrderStatusE orderId .Preparing ((t0 - 12000) + TIMING_PREPARING) s0 = .ok SA :=
    saveOrderStatusE_ok orderId .Preparing ((t0 - 12000) + TIMING_PREPARING) s0 [r] rfl rfl
  have hs2 : startOrderTrackingE orderId SA = .ok SB :=
    startOrderTrackingE_ok orderId SA P0 rfl rfl
  refine ⟨SB, ?_, rfl, rfl, rfl⟩
  show checkExistingOrdersE s0 = .ok SB
  unfold checkExistingOrdersE
  simp only [s0, parseOrders, Bind.bind, Except.bind]
  rw [hfil, hlat]
  simp only []
  rw [if_neg hcond1, if_pos hcond2]
  rw [hs1]
  simp only [Except.bind]
  exact hs2

/-- Witness for C2 at orderId "A", status Placed, clock 100000. -/
theorem resume_preparing_window_backdates_witness :
    ∃ s', checkExistingOrdersE
        { storage := some (.ordersJson
            [{ id := "A", status := .Placed, timestamp := 100000 - 12000,
               lastUpdate := 100000 - 5000 }]),
          now := 100000, timeouts := [], currentOrderId := none,
          writes := [], notifs := [], setOk := true } = .ok s' ∧
      s'.writes =
        [ { id := "A", status := .Preparing,
            timestamp := (100000 - 12000) + TIMING_PREPARING, lastUpdate := 100000 },
          { id := "A", status := .Placed, timestamp := 100000, lastUpdate := 100000 } ] ∧
      s'.currentOrderId = some "A" ∧
      s'.timeouts =
        [ { fireAt := 100000 + TIMING_PREPARING, orderId := "A", status := .Preparing },
          { fireAt := 100000 + TIMING_READY, orderId := "A", status := .Ready },
          { fireAt := 100000 + TIMING_ON_WAY, orderId := "A", status := .OnTheWay },
          { fireAt := 100000 + TIMING_DELIVERED, orderId := "A", status := .Delivered } ] :=
  resume_preparing_window_backdates 100000 "A" .Placed (by decide)

/-- C1: any record that is not Delivered but whose `lastUpdate` is 45s or
more in the past when `checkExistingOrders` runs is ignored: resume raises
no write, notification or scheduled timeout for its id, does not make it
the current order, and leaves its persisted record unchanged (assuming the
maintained invariant of pairwise-distinct ids). -/
theorem resume_ignores_stale_records (s : SysState) (orders : List OrderRecord)
    (r : OrderRecord)
    (hp : parseOrders s.storage = .ok orders)
    (hnodup : (orders.map (fun o => o.id)).Nodup)
    (hmem : r ∈ orders) (hst : r.status ≠ .Delivered)
    (hstale : TIMING_DELIVERED ≤ s.now - r.lastUpdate)
    (hT : s.timeouts = []) (hW : s.writes = []) (hN : s.notifs = [])
    (hC : s.currentOrderId = none) (hwr : s.setOk = true) :
    ∃ s', checkExistingOrdersE s = .ok s' ∧
      (∀ w ∈ s'.writes, WriteEvent.id w ≠ r.id) ∧
      (∀ n ∈ s'.notifs, NotificationEvent.orderId n ≠ r.id) ∧
      (∀ t ∈ s'.timeouts, Timeout.orderId t ≠ r.id) ∧
      s'.currentOrderId ≠ some r.id ∧
      (∀ l', parseOrders s'.storage = .ok l' →
        getOrderStatusList r.id l' = getOrderStatusList r.id orders) := by
  have hrne : isActiveOrder s.now r = false := by
    have h1 : ¬(s.now - r.lastUpdate < 45000) := by
      simp only [TIMING_DELIVERED] at hstale; omega
    simp [isActiveOrder, TIMING_DELIVERED, h1]
  have key : ∀ o ∈ orders.filter (isActiveOrder s.now), o.id ≠ r.id := by
    intro o ho hid
    have ho' := List.mem_filter.mp ho
    have heq : o = r := List.inj_on_of_nodup_map hnodup ho'.1 hmem hid
    rw [heq, hrne] at ho'
    exact Bool.false_ne_true ho'.2
  unfold checkExistingOrdersE
  rw [hp]
  simp only [Bind.bind, Except.bind]
  cases hL : latestActive (orders.filter (isActiveOrder s.now)) with
  | none =>
    refine ⟨s, rfl, ?_, ?_, ?_, ?_, ?_⟩
    · rw [hW]; intro w hw; simp at hw
    · rw [hN]; intro n hn; simp at hn
    · rw [hT]; intro t ht; simp at ht
    · rw [hC]; simp
    · intro l' hl'
      rw [hp] at hl'
      have : orders = l' := by injection hl'
      rw [← this]
  | some L =>
    simp only []
    have hLid : L.id ≠ r.id := key L (latestActive_mem _ L hL)
    have hLid' : r.id ≠ L.id := fun h => hLid h.symm
    split_ifs with h1 h2 h3 h4
    · -- Placed window: startOrderTracking directly
      refine ⟨_, startOrderTrackingE_ok L.id s orders hp hwr, ?_, ?_, ?_, ?_, ?_⟩
      · rw [hW]; intro w hw
        simp only [List.nil_append, List.mem_singleton] at hw
        rw [hw]; exact hLid
      · rw [hN]; intro n hn
        simp only [List.nil_append, List.mem_singleton] at hn
        rw [hn]; exact hLid
      · intro t ht
        simp only [List.mem_cons, List.not_mem_nil, or_false] at ht
        rcases ht with rfl | rfl | rfl | rfl <;> exact hLid
      · simp [hLid]
      · intro l' hl'
        simp only [parseOrders, Except.ok.injEq] at hl'
        rw [← hl', saveOrderStatusList_eq_upsertFirst]
        exact getOrderStatusList_upsertFirst_other _ orders r.id hLid'
    · -- Preparing window: backdated save then start
      have hsave := saveOrderStatusE_ok L.id .Preparing (L.timestamp + TIMING_PREPARING) s orders hp hwr
      rw [hsave]
      simp only [Except.bind]
      refine ⟨_, startOrderTrackingE_ok L.id _
        (saveOrderStatusList L.id .Preparing (L.timestamp + TIMING_PREPARING) s.now orders) rfl hwr,
        ?_, ?_, ?_, ?_, ?_⟩
      · rw [hW]; intro w hw
        simp only [List.nil_append, List.cons_append, List.mem_cons, List.not_mem_nil,
          or_false] at hw
        rcases hw with rfl | rfl <;> exact hLid
      · rw [hN]; intro n hn
        simp only [List.nil_append, List.mem_singleton] at hn
        rw [hn]; exact hLid
      · intro t ht
        simp only [List.mem_cons, List.not_mem_nil, or_false] at ht
        rcases ht with rfl | rfl | rfl | rfl <;> exact hLid
      · simp [hLid]
      · intro l' hl'
        simp only [parseOrders, Except.ok.injEq] at hl'
        rw [← hl', saveOrderStatusList_eq_upsertFirst, saveOrderStatusList_eq_upsertFirst]
        rw [getOrderStatusList_upsertFirst_other
          { id := L.id, status := .Placed, timestamp := s.now, lastUpdate := s.now } _ r.id hLid']
        exact getOrderStatusList_upsertFirst_other
          { id := L.id, status := .Preparing, timestamp := L.timestamp + TIMING_PREPARING, lastUpdate := s.now }
          orders r.id hLid'
    · -- Ready window
      have hsave := saveOrderStatusE_ok L.id .Ready (L.timestamp + TIMING_READY) s orders hp hwr
      rw [hsave]
      simp only [Except.bind]
      refine ⟨_, startOrderTrackingE_ok L.id _
        (saveOrderStatusList L.id .Ready (L.timestamp + TIMING_READY) s.now orders) rfl hwr,
        ?_, ?_, ?_, ?_, ?_⟩
      · rw [hW]; intro w hw
        simp only [List.nil_append, List.cons_append, List.mem_cons, List.not_mem_nil,
          or_false] at hw
        rcases hw with rfl | rfl <;> exact hLid
      · rw [hN]; intro n hn
        simp only [List.nil_append, List.mem_singleton] at hn
        rw [hn]; exact hLid
      · intro t ht
        simp only [List.mem_cons, List.not_mem_nil, or_false] at ht
        rcases ht with rfl | rfl | rfl | rfl <;> exact hLid
      · simp [hLid]
      · intro l' hl'
        simp only [parseOrders, Except.ok.injEq] at hl'
        rw [← hl', saveOrderStatusList_eq_upsertFirst, saveOrderStatusList_eq_upsertFirst]
        rw [getOrderStatusList_upsertFirst_other
          { id := L.id, status := .Placed, timestamp := s.now, lastUpdate := s.now } _ r.id hLid']
        exact getOrderStatusList_upsertFirst_other
          { id := L.id, status := .Ready, timestamp := L.timestamp + TIMING_READY, lastUpdate := s.now }
          orders r.id hLid'
    · -- OnTheWay window
      have hsave := saveOrderStatusE_ok L.id .OnTheWay (L.timestamp + TIMING_ON_WAY) s orders hp hwr
      rw [hsave]
      simp only [Except.bind]
      refine ⟨_, startOrderTrackingE_ok L.id _
        (saveOrderStatusList L.id .OnTheWay (L.timestamp + TIMING_ON_WAY) s.now orders) rfl hwr,
        ?_, ?_, ?_, ?_, ?_⟩
      · rw [hW]; intro w hw
        simp only [List.nil_append, List.cons_append, List.mem_cons, List.not_mem_nil,
          or_false] at hw
        rcases hw with rfl | rfl <;> exact hLid
      · rw [hN]; intro n hn
        simp only [List.nil_append, List.mem_singleton] at hn
        rw [hn]; exact hLid
      · intro t ht
        simp only [List.mem_cons, List.not_mem_nil, or_false] at ht
        rcases ht with rfl | rfl | rfl | rfl <;> exact hLid
      · simp [hLid]
      · intro l' hl'
        simp only [parseOrders, Except.ok.injEq] at hl'
        rw [← hl', saveOrderStatusList_eq_upsertFirst, saveOrderStatusList_eq_upsertFirst]
        rw [getOrderStatusList_upsertFirst_other
          { id := L.id, status := .Placed, timestamp := s.now, lastUpdate := s.now } _ r.id hLid']
        exact getOrderStatusList_upsertFirst_other
          { id := L.id, status := .OnTheWay, timestamp := L.timestamp + TIMING_ON_WAY, lastUpdate := s.now }
          orders r.id hLid'
    · -- stale latest: nothing happens
      refine ⟨s, rfl, ?_, ?_, ?_, ?_, ?_⟩
      · rw [hW]; intro w hw; simp at hw
      · rw [hN]; intro n hn; simp at hn
      · rw [hT]; intro t ht; simp at ht
      · rw [hC]; simp
      · intro l' hl'
        rw [hp] at hl'
        have : orders = l' := by injection hl'
        rw [← this]

/-- Witness for C1: a single record "B" whose lastUpdate is 50s old. -/
theorem resume_ignores_stale_records_witness :
    ∃ s', checkExistingOrdersE
        { storage := some (.ordersJson
            [{ id := "B", status := .Ready, timestamp := -100000, lastUpdate := -49000 }]),
          now := 1000, timeouts := [], currentOrderId := none,
          writes := [], notifs := [], setOk := true } = .ok s' ∧
      (∀ w ∈ s'.writes, WriteEvent.id w ≠ "B") ∧
      (∀ n ∈ s'.notifs, NotificationEvent.orderId n ≠ "B") ∧
      (∀ t ∈ s'.timeouts, Timeout.orderId t ≠ "B") ∧
      s'.currentOrderId ≠ some "B" ∧
      (∀ l', parseOrders s'.storage = .ok l' →
        getOrderStatusList "B" l' = getOrderStatusList "B"
          [{ id := "B", status := .Ready, timestamp := -100000, lastUpdate := -49000 }]) :=
  resume_ignores_stale_records
    { storage := some (.ordersJson
        [{ id := "B", status := .Ready, timestamp := -100000, lastUpdate := -49000 }]),
      now := 1000, timeouts := [], currentOrderId := none,
      writes := [], notifs := [], setOk := true }
    [{ id := "B", status := .Ready, timestamp := -100000, lastUpdate := -49000 }]
    { id := "B", status := .Ready, timestamp := -100000, lastUpdate := -49000 }
    rfl (by decide) (by decide) (by decide) (by decide) rfl rfl rfl rfl rfl
